import Mathlib

/-!
Shallow embedding of the discret11 raw-audio parse element
(src/subprojects/gst-plugins-base/gst/discret11/gstdiscret11audioparse.c and
its headers), together with theorems settling the claims about its
configuration model, negotiation bridge and frame transform.

Machine integers are modelled as Nat; the one place where 32-bit unsigned
wraparound matters (the guint multiplication in update_config_bpf and the
guint arithmetic of round_up_pow2) carries an explicit mod 2 ^ 32.
GStreamer audio-library helpers (format table, channel-mask functions,
audio-info parsing, channel reordering) are code of this repository that is
not under src/, so they are modelled from the spec; each such definition
says so in its doc comment.
-/

namespace Discret11

/-- Modelled from the spec: the PCM sample formats (GstAudioFormat restricted
to the concrete sample formats of the GStreamer format table; the spec calls
this the sample_format, meaningful only for PCM). -/
inductive AudioFormat where
  | s8 | u8 | s16le | s16be | u16le | u16be | s24le | s24be
  | s24_32le | s32le | u32le | f32le | f64le
deriving DecidableEq

/-- Modelled from the spec: GST_AUDIO_FORMAT_INFO_WIDTH of
gst_audio_format_get_info — the number of bits one sample of the format
occupies, from the GStreamer audio library format table (code of this
repository that is not under src/). -/
def AudioFormat.width : AudioFormat → Nat
  | .s8 => 8
  | .u8 => 8
  | .s16le => 16
  | .s16be => 16
  | .u16le => 16
  | .u16be => 16
  | .s24le => 24
  | .s24be => 24
  | .s24_32le => 32
  | .s32le => 32
  | .u32le => 32
  | .f32le => 32
  | .f64le => 64

/-- GstDiscret11AudioParseFormat (gstdiscret11audioparse.h, lines 38-43):
the stream encoding, PCM, mu-law or A-law. -/
inductive AudioParseFormat where
  | pcm | mulaw | alaw
deriving DecidableEq

/-- GstDiscret11AudioParseConfig (gstdiscret11audioparse.h, lines 46-82).
The two fixed 64-entry GstAudioChannelPosition arrays are modelled as lists
holding exactly the first num_channels valid entries; a channel position is
modelled as its GStreamer enum value, which is also its bit index in a
channel mask (canonical GStreamer order is increasing enum value). -/
structure Config where
  ready : Bool
  format : AudioParseFormat
  pcm_format : AudioFormat
  bpf : Nat
  sample_rate : Nat
  num_channels : Nat
  interleaved : Bool
  channel_positions : List Nat
  reordered_channel_positions : List Nat
  needs_channel_reordering : Bool
deriving DecidableEq

/-- Modelled from the spec: the canonical-order validity check
gst_audio_check_valid_channel_positions with force_order = TRUE (GStreamer
audio library, not under src/): the positions must be valid codes
(below 64) and strictly in the canonical mask order (increasing values,
hence no duplicates). -/
def isCanonicalOrder : List Nat → Bool
  | [] => true
  | [p] => decide (p < 64)
  | p :: q :: rest => decide (p < 64) && decide (p < q) && isCanonicalOrder (q :: rest)

/-- Modelled from the spec: gst_audio_channel_get_fallback_mask (GStreamer
audio library, not under src/) — the documented fallback mask for a given
channel count: a mask with that many positions set, empty when the count
exceeds the 64-channel bound. -/
def fallback_mask (num_channels : Nat) : Nat :=
  if num_channels ≤ 64 then 2 ^ num_channels - 1 else 0

/-- Modelled from the spec: gst_audio_channel_positions_from_mask (GStreamer
audio library, not under src/): yields the positions whose bits are set in
the mask, lowest bit first (canonical order), and fails unless the number of
set bits equals the channel count. -/
def positions_from_mask (num_channels : Nat) (mask : Nat) : Option (List Nat) :=
  if ((List.range 64).filter (fun b => mask.testBit b)).length = num_channels
  then some ((List.range 64).filter (fun b => mask.testBit b))
  else none

/-- Modelled from the spec: gst_audio_channel_positions_to_valid_order
(GStreamer audio library, not under src/): sorts the positions into
canonical order; fails if the position set itself is invalid (duplicate
entries or unknown position codes). -/
def positions_to_valid_order (ps : List Nat) : Option (List Nat) :=
  if ps.Nodup ∧ ∀ p ∈ ps, p < 64 then some (List.insertionSort (· ≤ ·) ps) else none

/-- Channel mask denoted by a position list: the bitwise or of 1 shifted by
each position value. -/
def mask_of_positions (ps : List Nat) : Nat :=
  ps.foldr (fun p m => 2 ^ p ||| m) 0

/-- Modelled from the spec: gst_audio_channel_positions_to_mask with
force_order = TRUE (GStreamer audio library, not under src/): fails unless
the positions are already in canonical order, otherwise yields their mask. -/
def positions_to_mask (ps : List Nat) : Option Nat :=
  if isCanonicalOrder ps then some (mask_of_positions ps) else none

/-- gst_discret11_audio_parse_set_config_channels (gstdiscret11audioparse.c,
lines 871-894). The C function asserts num_channels > 0; the fatal
g_assert is modelled as returning none. It always records the new channel
count and clears needs_channel_reordering; when set_positions is true it
fills channel_positions from the mask (a zero mask selects the fallback
mask) and reports whether that succeeded, otherwise it leaves the
position list untouched (stale, as in C) and reports success. -/
def set_config_channels (config : Config) (num_channels : Nat)
    (channel_mask : Nat) (set_positions : Bool) : Option (Config × Bool) :=
  if num_channels = 0 then none
  else
    let config := { config with
      num_channels := num_channels
      needs_channel_reordering := false }
    if set_positions then
      let channel_mask := if channel_mask = 0 then fallback_mask num_channels else channel_mask
      match positions_from_mask num_channels channel_mask with
      | some ps => some ({ config with channel_positions := ps }, true)
      | none => some (config, false)
    else
      some (config, true)

/-- gst_discret11_audio_parse_update_channel_reordering_flag
(gstdiscret11audioparse.c, lines 896-923). The fatal g_assert on
num_channels is modelled as none. If the positions are already in
canonical order the reordering flag is cleared; otherwise the flag is set,
the positions are copied into reordered_channel_positions and sorted into
valid order, the sort reporting failure (with the unsorted copy left in
place) if the position set is invalid. -/
def update_channel_reordering_flag (config : Config) : Option (Config × Bool) :=
  if config.num_channels = 0 then none
  else if isCanonicalOrder config.channel_positions then
    some ({ config with needs_channel_reordering := false }, true)
  else
    let config := { config with
      needs_channel_reordering := true
      reordered_channel_positions := config.channel_positions }
    match positions_to_valid_order config.reordered_channel_positions with
    | some sorted => some ({ config with reordered_channel_positions := sorted }, true)
    | none => some (config, false)

/-- gst_discret11_audio_parse_update_config_bpf (gstdiscret11audioparse.c,
lines 925-951): bpf is WIDTH * num_channels / 8 for PCM and
1 * num_channels for A-law and mu-law, computed in guint arithmetic
(the multiplication wraps mod 2 ^ 32). -/
def update_config_bpf (config : Config) : Config :=
  match config.format with
  | .pcm => { config with bpf := config.pcm_format.width * config.num_channels % 2 ^ 32 / 8 }
  | .alaw => { config with bpf := 1 * config.num_channels % 2 ^ 32 }
  | .mulaw => { config with bpf := 1 * config.num_channels % 2 ^ 32 }

/-- gst_discret11_audio_parse_init_config (gstdiscret11audioparse.c,
lines 855-869): the defaults (PCM, S16, 44100 Hz, 2 channels, interleaved,
bpf 0, not ready) followed by set_config_channels with the fallback mask. -/
def init_config : Config :=
  let config : Config := {
    ready := false
    format := .pcm
    pcm_format := .s16le
    bpf := 0
    sample_rate := 44100
    num_channels := 2
    interleaved := true
    channel_positions := []
    reordered_channel_positions := []
    needs_channel_reordering := false }
  match set_config_channels config config.num_channels 0 true with
  | some (config, _) => config
  | none => config

/-- GST_ROUND_UP_8 (GStreamer macro (((num)+7)&~7)), which on natural
numbers is rounding up to the next multiple of 8. -/
def GST_ROUND_UP_8 (num : Nat) : Nat :=
  (num + 7) / 8 * 8

/-- round_up_pow2 (gstdiscret11audioparse.c, lines 705-715): the classic
bit-smearing round-up to a power of two on a guint; the initial n - 1 is
guint subtraction, so it wraps mod 2 ^ 32. -/
def round_up_pow2 (n : Nat) : Nat :=
  let n := (n + (2 ^ 32 - 1)) % 2 ^ 32
  let n := n ||| (n >>> 1)
  let n := n ||| (n >>> 2)
  let n := n ||| (n >>> 4)
  let n := n ||| (n >>> 8)
  let n := n ||| (n >>> 16)
  (n + 1) % 2 ^ 32

/-- gst_discret11_audio_parse_get_alignment (gstdiscret11audioparse.c,
lines 717-737): 1 for non-PCM; for PCM the sample width in bits is divided
by 8 first, the resulting byte count is then rounded up to a multiple of 8
by GST_ROUND_UP_8 and finally rounded up to a power of two. -/
def get_alignment (config : Config) : Nat :=
  if config.format ≠ .pcm then 1
  else round_up_pow2 (GST_ROUND_UP_8 (config.pcm_format.width / 8))

/-- Modelled from the spec: the alignment contract of section 4.1 — for
non-PCM the alignment is 1; for PCM the sample width in bits is first
rounded up to a multiple of 8 bits, then converted to bytes, then rounded
up to the smallest power of two at least that byte count. -/
def spec_alignment (config : Config) : Nat :=
  if config.format ≠ .pcm then 1
  else round_up_pow2 (GST_ROUND_UP_8 config.pcm_format.width / 8)

/-- Modelled from the spec: the result of gst_audio_info_from_caps for raw
caps — sample format, rate, channel count, interleaved layout flag and the
channel positions the caps denote (GStreamer audio library, not under
src/). -/
structure AudioInfo where
  format : AudioFormat
  rate : Nat
  channels : Nat
  interleaved : Bool
  positions : List Nat
deriving DecidableEq

/-- Modelled from the spec: GST_AUDIO_INFO_BPF — bytes per frame of an
audio info, width times channels over 8 (GStreamer audio library, not
under src/). -/
def AudioInfo.bpf (i : AudioInfo) : Nat :=
  i.format.width * i.channels / 8

/-- Modelled from the spec: the validity conditions gst_audio_info_from_caps
enforces — positive rate, a channel count between 1 and the 64-channel
bound, and a channel-position list of matching length in canonical order
(raw caps carry their layout as a channel mask, so parsed positions are
always canonical). -/
def AudioInfo.valid (i : AudioInfo) : Bool :=
  decide (0 < i.rate) && decide (0 < i.channels) && decide (i.channels ≤ 64) &&
    decide (i.positions.length = i.channels) && isCanonicalOrder i.positions

/-- Modelled from the spec: gst_audio_info_from_caps (GStreamer audio
library, not under src/) — parsing the caps yields their audio info when
the caps carry one and it is valid, and fails otherwise. -/
def audio_info_from_caps : Option AudioInfo → Option AudioInfo
  | none => none
  | some i => if i.valid then some i else none

/-- Capability description: the media type of the first caps structure
together with the attributes the element reads from it. For the raw media
types the Option AudioInfo is what gst_audio_info_from_caps would extract
(none when the caps are unparseable); for A-law and mu-law the rate,
channels and channel-mask attributes are each optional. -/
inductive Caps where
  | raw (info : Option AudioInfo)
  | unaligned_raw (info : Option AudioInfo)
  | alaw (rate : Option Nat) (channels : Option Nat) (channel_mask : Option Nat)
  | mulaw (rate : Option Nat) (channels : Option Nat) (channel_mask : Option Nat)
  | unsupported
deriving DecidableEq

/-- Well-formedness of a capability description as produced by a GStreamer
peer: a channel-mask attribute, when present, is a nonzero guint64 value. -/
def Caps.wf : Caps → Prop
  | .alaw _ _ (some m) => 0 < m ∧ m < 2 ^ 64
  | .mulaw _ _ (some m) => 0 < m ∧ m < 2 ^ 64
  | _ => True

/-- Raw-caps arm of gst_discret11_audio_parse_caps_to_config
(gstdiscret11audioparse.c, lines 984-1005); the audio/x-unaligned-raw type
is first renamed to audio/x-raw (lines 972-982), so both media types reach
this arm. On parse failure nothing is written. On success the PCM fields
are filled from the info, the channels are set without filling positions,
the positions are copied from the info, and ready is set (line 1061). -/
def raw_caps_to_config (info : Option AudioInfo) (config : Config) : Config × Bool :=
  match audio_info_from_caps info with
  | none => (config, false)
  | some i =>
    let config := { config with
      format := AudioParseFormat.pcm
      pcm_format := i.format
      bpf := i.bpf
      sample_rate := i.rate
      interleaved := i.interleaved }
    match set_config_channels config i.channels 0 false with
    | none => (config, false)
    | some (config, _) =>
      ({ config with channel_positions := i.positions, ready := true }, true)

/-- A-law and mu-law arm of gst_discret11_audio_parse_caps_to_config
(gstdiscret11audioparse.c, lines 1006-1048): the format is recorded first,
then rate and channels are required in that order, a missing channel mask
falls back to the fallback mask, set_config_channels fills the positions,
and on success bpf is 1 * channels and ready is set (line 1061). -/
def law_caps_to_config (fmt : AudioParseFormat) (rate channels channel_mask : Option Nat)
    (config : Config) : Config × Bool :=
  let config := { config with format := fmt }
  match rate with
  | none => (config, false)
  | some r =>
    let config := { config with sample_rate := r }
    match channels with
    | none => (config, false)
    | some n =>
      let mask := match channel_mask with
        | some m => m
        | none => fallback_mask n
      match set_config_channels config n mask true with
      | none => (config, false)
      | some (config, ok) =>
        if ok then ({ config with bpf := 1 * n % 2 ^ 32, ready := true }, true)
        else (config, false)

/-- gst_discret11_audio_parse_caps_to_config (gstdiscret11audioparse.c,
lines 953-1063), dispatching on the media type; unsupported media types
fail without touching the configuration. -/
def caps_to_config (caps : Caps) (config : Config) : Config × Bool :=
  match caps with
  | .raw info => raw_caps_to_config info config
  | .unaligned_raw info => raw_caps_to_config info config
  | .alaw rate channels channel_mask => law_caps_to_config .alaw rate channels channel_mask config
  | .mulaw rate channels channel_mask => law_caps_to_config .mulaw rate channels channel_mask config
  | .unsupported => (config, false)

/-- gst_discret11_audio_parse_config_to_caps (gstdiscret11audioparse.c,
lines 1065-1132): fails (with the caps out-pointer set to NULL, modelled by
none) when bpf is 0; otherwise publishes reordered_channel_positions when
needs_channel_reordering and channel_positions otherwise — as a position
list in raw-PCM caps for PCM, and as a channel mask (failing if the
positions cannot be put in a mask) for A-law and mu-law. The PCM caps are
built by gst_audio_info_init plus set_format, whose default layout is
interleaved. -/
def config_to_caps (config : Config) : Option Caps :=
  if config.bpf = 0 then none
  else
    let channel_positions := if config.needs_channel_reordering
      then config.reordered_channel_positions
      else config.channel_positions
    match config.format with
    | .pcm =>
      some (.raw (some {
        format := config.pcm_format
        rate := config.sample_rate
        channels := config.num_channels
        interleaved := true
        positions := channel_positions }))
    | .alaw =>
      match positions_to_mask channel_positions with
      | none => none
      | some mask =>
        some (.alaw (some config.sample_rate) (some config.num_channels) (some mask))
    | .mulaw =>
      match positions_to_mask channel_positions with
      | none => none
      | some mask =>
        some (.mulaw (some config.sample_rate) (some config.num_channels) (some mask))

/-- Take exactly w bytes starting at the given list, padding with zeroes;
used to carve one channel slot out of a frame. -/
def take_pad (w : Nat) (l : List Nat) : List Nat :=
  l.take w ++ List.replicate (w - l.length) 0

/-- Modelled from the spec: one frame of gst_audio_buffer_reorder_channels
(GStreamer audio library, not under src/) — output channel slot j holds the
input slot whose position in from_pos equals to_pos at j; w is the sample
width in bytes. -/
def reorder_frame (w : Nat) (from_pos frame : List Nat) : List Nat → List Nat
  | [] => []
  | p :: rest =>
    take_pad w (frame.drop (List.indexOf p from_pos * w)) ++
      reorder_frame w from_pos frame rest

/-- Frame-by-frame worker for reorder_channels; the fuel argument (at least
the byte count, one unit spent per frame of at least one byte) makes the
recursion structural. -/
def reorder_channels_go (w n : Nat) (from_pos to_pos : List Nat) : Nat → List Nat → List Nat
  | 0, _ => []
  | _ + 1, [] => []
  | fuel + 1, d :: ds =>
    reorder_frame w from_pos ((d :: ds).take (n * w)) to_pos ++
      reorder_channels_go w n from_pos to_pos fuel ((d :: ds).drop (n * w))

/-- Modelled from the spec: gst_audio_buffer_reorder_channels (GStreamer
audio library, not under src/) applied to a whole buffer — the bytes are
cut into frames of n channels of w bytes and every frame is permuted from
from_pos order to to_pos order. -/
def reorder_channels (w n : Nat) (from_pos to_pos : List Nat) (data : List Nat) : List Nat :=
  if n * w = 0 then []
  else reorder_channels_go w n from_pos to_pos data.length data

/-- gst_discret11_audio_parse_process (gstdiscret11audioparse.c, lines
739-787): for a PCM configuration that needs channel reordering, a new
buffer is produced holding the first num_valid_in_bytes input bytes with
the channels of every frame reordered from channel_positions order to
reordered_channel_positions order; in every other case the processed-data
pointer is left NULL (modelled by none). The configuration is only read. -/
def process (config : Config) (in_data : List Nat) (num_valid_in_bytes : Nat) : Option (List Nat) :=
  if config.format = .pcm ∧ config.needs_channel_reordering = true then
    some (reorder_channels (config.pcm_format.width / 8) config.num_channels
      config.channel_positions config.reordered_channel_positions
      (in_data.take num_valid_in_bytes))
  else none

/-- GstDiscret11ParseConfig (gstdiscret11parse.h, lines 58-63). -/
inductive ParseConfigId where
  | current | sinkcaps | properties
deriving DecidableEq

/-- Target of the current_config pointer: one of the two owned
configurations. -/
inductive ConfigPtr where
  | properties | sinkcaps
deriving DecidableEq

/-- GstDiscret11AudioParse (gstdiscret11audioparse.h, lines 84-102): the two
configurations and the never-NULL current_config pointer. -/
structure AudioParse where
  properties_config : Config
  sink_caps_config : Config
  current_config : ConfigPtr
deriving DecidableEq

/-- gst_discret11_audio_parse_init (gstdiscret11audioparse.c, lines
304-322): both configs initialised, current pointer at the properties
config, which is made ready and gets a valid bpf. -/
def audio_parse_init : AudioParse :=
  let props := update_config_bpf { init_config with ready := true }
  { properties_config := props
    sink_caps_config := init_config
    current_config := .properties }

/-- gst_discret11_audio_parse_is_using_sink_caps (gstdiscret11audioparse.c,
lines 828-834): pointer comparison of current_config with the sink-caps
config. -/
def is_using_sink_caps (p : AudioParse) : Bool :=
  decide (p.current_config = ConfigPtr.sinkcaps)

/-- gst_discret11_audio_parse_get_current_config (gstdiscret11audioparse.c,
lines 654-663). -/
def get_current_config (p : AudioParse) : ParseConfigId :=
  if is_using_sink_caps p then .sinkcaps else .properties

/-- gst_discret11_audio_parse_set_current_config (gstdiscret11audioparse.c,
lines 629-652); the g_assert_not_reached default arm is modelled as none. -/
def set_current_config (p : AudioParse) : ParseConfigId → Option AudioParse
  | .properties => some { p with current_config := .properties }
  | .sinkcaps => some { p with current_config := .sinkcaps }
  | .current => none

/-- gst_discret11_audio_parse_stop (gstdiscret11audioparse.c, lines
613-627): un-readies the sink-caps config. -/
def audio_parse_stop (p : AudioParse) : AudioParse :=
  { p with sink_caps_config := { p.sink_caps_config with ready := false } }

/-- PROP_FORMAT arm of gst_discret11_audio_parse_set_property
(gstdiscret11audioparse.c, lines 346-367): on a changed value the format is
stored and bpf recomputed. -/
def set_format_prop (p : AudioParse) (new_format : AudioParseFormat) : AudioParse :=
  if new_format = p.properties_config.format then p
  else { p with properties_config :=
    update_config_bpf { p.properties_config with format := new_format } }

/-- PROP_PCM_FORMAT arm of gst_discret11_audio_parse_set_property
(gstdiscret11audioparse.c, lines 369-390). -/
def set_pcm_format_prop (p : AudioParse) (new_pcm_format : AudioFormat) : AudioParse :=
  if new_pcm_format = p.properties_config.pcm_format then p
  else { p with properties_config :=
    update_config_bpf { p.properties_config with pcm_format := new_pcm_format } }

/-- PROP_SAMPLE_RATE arm of gst_discret11_audio_parse_set_property
(gstdiscret11audioparse.c, lines 392-409): stores the rate; bpf is not
touched. -/
def set_sample_rate_prop (p : AudioParse) (new_sample_rate : Nat) : AudioParse :=
  if new_sample_rate = p.properties_config.sample_rate then p
  else { p with properties_config :=
    { p.properties_config with sample_rate := new_sample_rate } }

/-- PROP_NUM_CHANNELS arm of gst_discret11_audio_parse_set_property
(gstdiscret11audioparse.c, lines 411-438): on a changed value the channels
are set with default positions (the return value of set_config_channels is
ignored, as in C), num_channels stored and bpf recomputed. -/
def set_num_channels_prop (p : AudioParse) (new_num_channels : Nat) : Option AudioParse :=
  if new_num_channels = p.properties_config.num_channels then some p
  else
    match set_config_channels p.properties_config new_num_channels 0 true with
    | none => none
    | some (config, _) =>
      let config := { config with num_channels := new_num_channels }
      some { p with properties_config := update_config_bpf config }

/-- PROP_INTERLEAVED arm of gst_discret11_audio_parse_set_property
(gstdiscret11audioparse.c, lines 440-457). -/
def set_interleaved_prop (p : AudioParse) (new_interleaved : Bool) : AudioParse :=
  if new_interleaved = p.properties_config.interleaved then p
  else { p with properties_config :=
    { p.properties_config with interleaved := new_interleaved } }

/-- PROP_CHANNEL_POSITIONS arm of gst_discret11_audio_parse_set_property
(gstdiscret11audioparse.c, lines 459-521): an empty array is rejected
before anything is touched; a NULL array (none) restores the default
positions for the current channel count; a non-NULL array first resizes the
channel count if its length differs (without filling positions), copies the
array into channel_positions and recomputes the reordering flag (its return
value is ignored, as in C). Both non-error paths end by recomputing bpf. -/
def set_channel_positions_prop (p : AudioParse) (valarray : Option (List Nat)) :
    Option AudioParse :=
  match valarray with
  | some vals =>
    if vals = [] then some p
    else
      let step1 : Option Config :=
        if vals.length = p.properties_config.num_channels then
          some p.properties_config
        else
          (set_config_channels p.properties_config vals.length 0 false).map (·.1)
      match step1 with
      | none => none
      | some config =>
        let config := { config with channel_positions := vals }
        match update_channel_reordering_flag config with
        | none => none
        | some (config, _) =>
          some { p with properties_config := update_config_bpf config }
  | none =>
    if 0 < p.properties_config.num_channels then
      match set_config_channels p.properties_config
          p.properties_config.num_channels 0 true with
      | none => none
      | some (config, _) =>
        some { p with properties_config := update_config_bpf config }
    else
      some { p with properties_config := update_config_bpf p.properties_config }

/-!
Helper lemmas about the embedded definitions.
-/

/-- Every sample format of the table is at least one byte wide, a whole
number of bytes, and at most eight bytes wide. -/
lemma AudioFormat.width_facts (f : AudioFormat) :
    8 ≤ f.width ∧ f.width % 8 = 0 ∧ f.width ≤ 64 := by
  cases f <;> decide

/-- Characterisation of the canonical-order check as a strictly increasing
list of valid position codes. -/
lemma isCanonicalOrder_eq_true_iff (l : List Nat) :
    isCanonicalOrder l = true ↔ l.Pairwise (· < ·) ∧ ∀ p ∈ l, p < 64 := by
  induction l with
  | nil => simp [isCanonicalOrder]
  | cons p rest ih =>
    cases rest with
    | nil => simp [isCanonicalOrder]
    | cons q rest2 =>
      simp only [isCanonicalOrder, Bool.and_eq_true, decide_eq_true_eq]
      constructor
      · rintro ⟨⟨hp64, hpq⟩, hrest⟩
        obtain ⟨hpair, hbound⟩ := ih.mp hrest
        refine ⟨List.pairwise_cons.mpr ⟨?_, hpair⟩, ?_⟩
        · intro x hx
          rcases List.mem_cons.mp hx with h1 | h1
          · omega
          · exact lt_trans hpq ((List.pairwise_cons.mp hpair).1 x h1)
        · intro x hx
          rcases List.mem_cons.mp hx with h1 | h1
          · omega
          · exact hbound x h1
      · rintro ⟨hpair, hbound⟩
        have hp := List.pairwise_cons.mp hpair
        refine ⟨⟨hbound p (by simp), hp.1 q (by simp)⟩, ih.mpr ⟨hp.2, ?_⟩⟩
        intro x hx
        exact hbound x (List.mem_cons_of_mem p hx)

/-- Filtering the range of valid position codes always yields a
canonical-order list. -/
lemma isCanonicalOrder_filter_range (p : Nat → Bool) :
    isCanonicalOrder ((List.range 64).filter p) = true := by
  rw [isCanonicalOrder_eq_true_iff]
  refine ⟨(List.pairwise_lt_range 64).filter p, ?_⟩
  intro x hx
  exact List.mem_range.mp (List.mem_filter.mp hx).1

/-- Everything a successful positions_from_mask guarantees. -/
lemma positions_from_mask_eq_some {n m : Nat} {ps : List Nat}
    (h : positions_from_mask n m = some ps) :
    ps = (List.range 64).filter (fun b => m.testBit b) ∧ ps.length = n ∧ n ≤ 64 ∧
      isCanonicalOrder ps = true := by
  unfold positions_from_mask at h
  split_ifs at h with hl
  · obtain rfl := Option.some.inj h
    refine ⟨rfl, hl, ?_, isCanonicalOrder_filter_range _⟩
    calc n = ((List.range 64).filter (fun b => m.testBit b)).length := hl.symm
    _ ≤ (List.range 64).length := List.length_filter_le _ _
    _ = 64 := List.length_range 64

/-- Membership description of the mask denoted by a position list. -/
lemma testBit_mask_of_positions (ps : List Nat) (b : Nat) :
    (mask_of_positions ps).testBit b = decide (b ∈ ps) := by
  induction ps with
  | nil => simp [mask_of_positions, Nat.zero_testBit]
  | cons p rest ih =>
    have hstep : mask_of_positions (p :: rest) = 2 ^ p ||| mask_of_positions rest := rfl
    rw [hstep, Nat.testBit_or, ih]
    by_cases hpb : p = b
    · subst hpb
      rw [Nat.testBit_two_pow_self]
      simp [List.mem_cons]
    · rw [Nat.testBit_two_pow_of_ne hpb]
      simp only [Bool.false_or, List.mem_cons]
      have : ¬(b = p) := fun hc => hpb hc.symm
      simp [this]

/-- Rebuilding a guint64 mask from its bit positions gives the mask back. -/
lemma mask_of_positions_filter (m : Nat) (hm : m < 2 ^ 64) :
    mask_of_positions ((List.range 64).filter (fun b => m.testBit b)) = m := by
  apply Nat.eq_of_testBit_eq
  intro j
  rw [testBit_mask_of_positions]
  by_cases hj : j < 64
  · by_cases ht : m.testBit j = true
    · simp [List.mem_filter, List.mem_range, hj, ht]
    · have ht2 : m.testBit j = false := by
        cases hb : m.testBit j
        · rfl
        · exact absurd hb ht
      simp [List.mem_filter, List.mem_range, hj, ht2]
  · have h64 : m < 2 ^ j :=
      lt_of_lt_of_le hm (Nat.pow_le_pow_right (by norm_num) (by omega))
    simp [List.mem_filter, List.mem_range, hj, Nat.testBit_lt_two_pow h64]

/-- Output of a successful positions_to_valid_order is in canonical order. -/
lemma positions_to_valid_order_canonical {ps sorted : List Nat}
    (h : positions_to_valid_order ps = some sorted) :
    isCanonicalOrder sorted = true := by
  unfold positions_to_valid_order at h
  split_ifs at h with hc
  obtain rfl := Option.some.inj h
  obtain ⟨hnd, hb⟩ := hc
  rw [isCanonicalOrder_eq_true_iff]
  constructor
  · have hsorted : List.Sorted (· ≤ ·) (List.insertionSort (· ≤ ·) ps) :=
      List.sorted_insertionSort _ ps
    have hnd2 : (List.insertionSort (· ≤ ·) ps).Nodup :=
      (List.perm_insertionSort (· ≤ ·) ps).nodup_iff.mpr hnd
    exact hsorted.lt_of_le hnd2
  · intro x hx
    exact hb x ((List.perm_insertionSort (· ≤ ·) ps).mem_iff.mp hx)

/-- A padded slot always has exactly the sample width. -/
lemma take_pad_length (w : Nat) (l : List Nat) : (take_pad w l).length = w := by
  simp [take_pad]
  omega

/-- One reordered frame holds one slot per target position. -/
lemma reorder_frame_length (w : Nat) (fp frame tp : List Nat) :
    (reorder_frame w fp frame tp).length = tp.length * w := by
  induction tp with
  | nil => simp [reorder_frame]
  | cons p rest ih =>
    simp [reorder_frame, take_pad_length, ih, Nat.succ_mul]
    omega

/-- The worker preserves the byte count on frame-aligned data. -/
lemma reorder_channels_go_length (w n : Nat) (fp tp : List Nat) (htp : tp.length = n)
    (h0 : 0 < n * w) :
    ∀ (fuel : Nat) (data : List Nat), data.length ≤ fuel → data.length % (n * w) = 0 →
      (reorder_channels_go w n fp tp fuel data).length = data.length := by
  intro fuel
  induction fuel with
  | zero =>
    intro data h1 _
    have hnil : data = [] := List.eq_nil_of_length_eq_zero (Nat.le_zero.mp h1)
    subst hnil
    rfl
  | succ k ih =>
    intro data h1 h2
    cases data with
    | nil => rfl
    | cons d ds =>
      have hlenpos : 0 < (d :: ds).length := by simp
      have hdvd : (n * w) ∣ (d :: ds).length := Nat.dvd_of_mod_eq_zero h2
      have hge : n * w ≤ (d :: ds).length := Nat.le_of_dvd hlenpos hdvd
      have hdvd2 : (n * w) ∣ ((d :: ds).length - n * w) := Nat.dvd_sub' hdvd dvd_rfl
      have hmod2 : ((d :: ds).drop (n * w)).length % (n * w) = 0 := by
        rw [List.length_drop]
        exact Nat.mod_eq_zero_of_dvd hdvd2
      have hfuel : ((d :: ds).drop (n * w)).length ≤ k := by
        rw [List.length_drop]
        simp only [List.length_cons] at h1 ⊢
        omega
      show (reorder_frame w fp ((d :: ds).take (n * w)) tp ++
        reorder_channels_go w n fp tp k ((d :: ds).drop (n * w))).length = (d :: ds).length
      rw [List.length_append, reorder_frame_length, htp, ih _ hfuel hmod2,
        List.length_drop]
      omega

/-- reorder_channels preserves the byte count on frame-aligned data. -/
lemma reorder_channels_length (w n : Nat) (fp tp data : List Nat)
    (htp : tp.length = n) (h0 : 0 < n * w) (hd : data.length % (n * w) = 0) :
    (reorder_channels w n fp tp data).length = data.length := by
  unfold reorder_channels
  rw [if_neg (by omega)]
  exact reorder_channels_go_length w n fp tp htp h0 data.length data le_rfl hd

/-- Filtering a range by a bound below its length gives the smaller range. -/
lemma filter_decide_lt_range (m n : Nat) (h : n ≤ m) :
    (List.range m).filter (fun b => decide (b < n)) = List.range n := by
  induction m with
  | zero =>
    have : n = 0 := by omega
    subst this
    simp
  | succ k ih =>
    by_cases h2 : n ≤ k
    · rw [List.range_succ, List.filter_append, ih h2]
      simp [Nat.not_lt.mpr h2]
    · have : n = k + 1 := by omega
      subst this
      apply List.filter_eq_self.mpr
      intro a ha
      simp [List.mem_range.mp ha]

/-- The fallback mask for a channel count within the bound denotes the first
num_channels position codes. -/
lemma positions_from_mask_fallback (n : Nat) (h : n ≤ 64) :
    positions_from_mask n (fallback_mask n) = some (List.range n) := by
  unfold positions_from_mask fallback_mask
  rw [if_pos h]
  have hf : (List.range 64).filter (fun b => (2 ^ n - 1).testBit b) = List.range n := by
    rw [List.filter_congr (fun b _ => by rw [Nat.testBit_two_pow_sub_one]),
      filter_decide_lt_range 64 n h]
  rw [hf]
  simp

/-- Closed form of set_config_channels without position filling. -/
lemma set_config_channels_nofill (c : Config) (n mask : Nat) :
    set_config_channels c n mask false =
      if n = 0 then none
      else some ({ c with num_channels := n, needs_channel_reordering := false }, true) :=
  rfl

/-- Closed form of set_config_channels with position filling. -/
lemma set_config_channels_fill (c : Config) (n mask : Nat) :
    set_config_channels c n mask true =
      if n = 0 then none
      else
        match positions_from_mask n (if mask = 0 then fallback_mask n else mask) with
        | some ps =>
          some ({ c with
            num_channels := n
            needs_channel_reordering := false
            channel_positions := ps }, true)
        | none => some ({ c with num_channels := n, needs_channel_reordering := false }, false) :=
  rfl

/-- Effective channel mask the A-law and mu-law negotiation arm ends up
using: the caps attribute unless it is absent or zero, in which case the
fallback mask for the channel count. -/
def effective_mask (n : Nat) (channel_mask : Option Nat) : Nat :=
  match channel_mask with
  | some m => if m = 0 then fallback_mask n else m
  | none => fallback_mask n

/-- Closed form of the raw-caps negotiation arm. -/
lemma raw_caps_to_config_eq (info : Option AudioInfo) (c0 : Config) :
    raw_caps_to_config info c0 =
      match audio_info_from_caps info with
      | none => (c0, false)
      | some i =>
        if i.channels = 0 then
          ({ c0 with
            format := AudioParseFormat.pcm
            pcm_format := i.format
            bpf := i.bpf
            sample_rate := i.rate
            interleaved := i.interleaved }, false)
        else
          ({ c0 with
            format := AudioParseFormat.pcm
            pcm_format := i.format
            bpf := i.bpf
            sample_rate := i.rate
            interleaved := i.interleaved
            num_channels := i.channels
            needs_channel_reordering := false
            channel_positions := i.positions
            ready := true }, true) := by
  unfold raw_caps_to_config
  cases audio_info_from_caps info with
  | none => rfl
  | some i =>
    dsimp only
    rw [set_config_channels_nofill]
    by_cases h : i.channels = 0
    · rw [if_pos h, if_pos h]
    · rw [if_neg h, if_neg h]

/-- Closed form of the A-law and mu-law negotiation arm. -/
lemma law_caps_to_config_eq (fmt : AudioParseFormat) (rate channels channel_mask : Option Nat)
    (c0 : Config) :
    law_caps_to_config fmt rate channels channel_mask c0 =
      match rate with
      | none => ({ c0 with format := fmt }, false)
      | some r =>
        match channels with
        | none => ({ c0 with format := fmt, sample_rate := r }, false)
        | some n =>
          if n = 0 then ({ c0 with format := fmt, sample_rate := r }, false)
          else
            match positions_from_mask n (effective_mask n channel_mask) with
            | some ps =>
              ({ c0 with
                format := fmt
                sample_rate := r
                num_channels := n
                needs_channel_reordering := false
                channel_positions := ps
                bpf := 1 * n % 2 ^ 32
                ready := true }, true)
            | none =>
              ({ c0 with
                format := fmt
                sample_rate := r
                num_channels := n
                needs_channel_reordering := false }, false) := by
  unfold law_caps_to_config
  cases rate with
  | none => rfl
  | some r =>
    cases channels with
    | none => rfl
    | some n =>
      have hmask : (if (match channel_mask with
          | some m => m
          | none => fallback_mask n) = 0 then fallback_mask n
          else (match channel_mask with
          | some m => m
          | none => fallback_mask n)) = effective_mask n channel_mask := by
        cases channel_mask with
        | none =>
          by_cases hz : fallback_mask n = 0
          · simp [effective_mask, hz]
          · simp [effective_mask, hz]
        | some m => rfl
      dsimp only
      rw [set_config_channels_fill, hmask]
      by_cases h : n = 0
      · rw [if_pos h, if_pos h]
      · rw [if_neg h, if_neg h]
        cases positions_from_mask n (effective_mask n channel_mask) with
        | none => rfl
        | some ps => rfl

/-- Everything a successful raw-caps parse guarantees about the info. -/
lemma audio_info_from_caps_eq_some {info : Option AudioInfo} {i : AudioInfo}
    (h : audio_info_from_caps info = some i) :
    info = some i ∧ 0 < i.rate ∧ 0 < i.channels ∧ i.channels ≤ 64 ∧
      i.positions.length = i.channels ∧ isCanonicalOrder i.positions = true := by
  cases info with
  | none => exact absurd h (by simp [audio_info_from_caps])
  | some j =>
    have hred : audio_info_from_caps (some j) = if j.valid = true then some j else none := rfl
    rw [hred] at h
    split_ifs at h with hv
    obtain rfl := Option.some.inj h
    unfold AudioInfo.valid at hv
    simp only [Bool.and_eq_true, decide_eq_true_eq] at hv
    exact ⟨rfl, hv.1.1.1.1, hv.1.1.1.2, hv.1.1.2, hv.1.2, hv.2⟩

/-- A valid audio info has a nonzero bytes-per-frame value. -/
lemma audio_info_bpf_pos (i : AudioInfo) (h : 0 < i.channels) : 0 < i.bpf := by
  obtain ⟨hw, _, _⟩ := AudioFormat.width_facts i.format
  unfold AudioInfo.bpf
  have h8 : 8 ≤ i.format.width * i.channels :=
    le_trans (by omega) (Nat.mul_le_mul hw h)
  omega

/-- Encoding a capability description carries. -/
def caps_encoding : Caps → Option AudioParseFormat
  | .raw _ => some .pcm
  | .unaligned_raw _ => some .pcm
  | .alaw _ _ _ => some .alaw
  | .mulaw _ _ _ => some .mulaw
  | .unsupported => none

/-- Sample rate a capability description carries. -/
def caps_rate : Caps → Option Nat
  | .raw info => (audio_info_from_caps info).map (·.rate)
  | .unaligned_raw info => (audio_info_from_caps info).map (·.rate)
  | .alaw rate _ _ => rate
  | .mulaw rate _ _ => rate
  | .unsupported => none

/-- Channel count a capability description carries. -/
def caps_channels : Caps → Option Nat
  | .raw info => (audio_info_from_caps info).map (·.channels)
  | .unaligned_raw info => (audio_info_from_caps info).map (·.channels)
  | .alaw _ channels _ => channels
  | .mulaw _ channels _ => channels
  | .unsupported => none

/-- Channel mask an A-law or mu-law capability denotes for a given channel
count: the mask attribute if present, else the fallback mask. -/
def caps_mask_attr (n : Nat) (channel_mask : Option Nat) : Nat :=
  match channel_mask with
  | some m => m
  | none => fallback_mask n

/-- Channel layout a capability description denotes: the parsed positions
for the raw media types, and the positions of the (possibly fallback)
channel mask for the A-law and mu-law types. -/
def caps_layout : Caps → Option (List Nat)
  | .raw info => (audio_info_from_caps info).map (·.positions)
  | .unaligned_raw info => (audio_info_from_caps info).map (·.positions)
  | .alaw _ channels channel_mask =>
    match channels with
    | none => none
    | some n => positions_from_mask n (caps_mask_attr n channel_mask)
  | .mulaw _ channels channel_mask =>
    match channels with
    | none => none
    | some n => positions_from_mask n (caps_mask_attr n channel_mask)
  | .unsupported => none

/-- Layout selected for publication by config_to_caps. -/
def chosen_positions (c : Config) : List Nat :=
  if c.needs_channel_reordering then c.reordered_channel_positions
  else c.channel_positions

/-- A configuration whose reordering state was established by the core
itself: either by a successful update_channel_reordering_flag, or by a
successful caps_to_config on well-formed caps. -/
def reorder_established (c : Config) : Prop :=
  (∃ c0, update_channel_reordering_flag c0 = some (c, true)) ∨
  (∃ caps c0, Caps.wf caps ∧ caps_to_config caps c0 = (c, true))

/-- Value update_config_bpf would store for the fields of a configuration. -/
def bpf_formula (c : Config) : Nat :=
  match c.format with
  | .pcm => c.pcm_format.width * c.num_channels % 2 ^ 32 / 8
  | .alaw => 1 * c.num_channels % 2 ^ 32
  | .mulaw => 1 * c.num_channels % 2 ^ 32

/-- Failure of the raw negotiation arm leaves the ready flag untouched. -/
lemma raw_failure_keeps_ready (info : Option AudioInfo) (c : Config)
    (h : (raw_caps_to_config info c).2 = false) :
    (raw_caps_to_config info c).1.ready = c.ready := by
  rw [raw_caps_to_config_eq] at h ⊢
  cases hi : audio_info_from_caps info with
  | none => rfl
  | some i =>
    rw [hi] at h
    dsimp only at h ⊢
    by_cases hch : i.channels = 0
    · rw [if_pos hch]
    · rw [if_neg hch] at h
      simp at h

/-- Failure of the A-law and mu-law negotiation arm leaves the ready flag
untouched. -/
lemma law_failure_keeps_ready (fmt : AudioParseFormat)
    (rate channels channel_mask : Option Nat) (c : Config)
    (h : (law_caps_to_config fmt rate channels channel_mask c).2 = false) :
    (law_caps_to_config fmt rate channels channel_mask c).1.ready = c.ready := by
  rw [law_caps_to_config_eq] at h ⊢
  cases rate with
  | none => rfl
  | some r =>
    cases channels with
    | none => rfl
    | some n =>
      dsimp only at h ⊢
      by_cases hn : n = 0
      · rw [if_pos hn]
      · rw [if_neg hn] at h ⊢
        cases hp : positions_from_mask n (effective_mask n channel_mask) with
        | some ps =>
          rw [hp] at h
          simp at h
        | none => rfl

/-!
Claim theorems.
-/

/-- C1: the claim states that for PCM the alignment is the smallest power of
two at least the sample width in bytes (the width first rounded up to a
multiple of 8 bits, as spec_alignment computes). The code divides by 8
before applying GST_ROUND_UP_8, so on the default S16 (16-bit, 2-byte)
configuration get_alignment returns 8 where the claim requires 2: the
claim is right and the code transposed the two steps. -/
theorem C1_alignment_eval :
    get_alignment audio_parse_init.properties_config = 8 ∧
    spec_alignment audio_parse_init.properties_config = 2 ∧
    get_alignment audio_parse_init.properties_config ≠
      spec_alignment audio_parse_init.properties_config := by
  decide

/-- C2: for every configuration within the 64-channel bound of the spec,
update_config_bpf stores (sample width / 8) * channel count for PCM and
1 * channel count for A-law and mu-law. -/
theorem C2_update_bpf (c : Config) (h : c.num_channels ≤ 64) :
    (update_config_bpf c).bpf =
      match c.format with
      | .pcm => c.pcm_format.width / 8 * c.num_channels
      | .alaw => 1 * c.num_channels
      | .mulaw => 1 * c.num_channels := by
  obtain ⟨rdy, fmt, pf, bpf0, sr, nc, il, cp, rcp, nr⟩ := c
  dsimp only at h ⊢
  cases fmt
  case pcm =>
    dsimp only [update_config_bpf]
    cases pf <;> dsimp only [AudioFormat.width] <;> omega
  case alaw =>
    dsimp only [update_config_bpf]
    omega
  case mulaw =>
    dsimp only [update_config_bpf]
    omega

/-- Explicit stereo S16 configuration used as a witness input. -/
def c2_config : Config :=
  { ready := true
    format := .pcm
    pcm_format := .s16le
    bpf := 4
    sample_rate := 48000
    num_channels := 2
    interleaved := true
    channel_positions := [0, 1]
    reordered_channel_positions := []
    needs_channel_reordering := false }

/-- C2 witness: evaluated on the concrete stereo S16 configuration, bpf is
(16 / 8) * 2 = 4. -/
theorem C2_update_bpf_witness : (update_config_bpf c2_config).bpf = 4 := by
  rw [C2_update_bpf c2_config (by decide)]
  decide

/-- C3 counterexample: making the sink-caps configuration current and then
stopping the stream leaves the sink-caps (negotiated) configuration not
ready, yet get_current_config still returns it — so the selection is not
governed by the ready flag, refuting the claim as stated. -/
theorem C3_counterexample :
    set_current_config audio_parse_init ParseConfigId.sinkcaps =
      some { audio_parse_init with current_config := ConfigPtr.sinkcaps } ∧
    (audio_parse_stop
      { audio_parse_init with current_config := ConfigPtr.sinkcaps }).sink_caps_config.ready =
      false ∧
    get_current_config
      (audio_parse_stop { audio_parse_init with current_config := ConfigPtr.sinkcaps }) =
      ParseConfigId.sinkcaps := by
  decide

/-- C3 (amended): get_current_config returns the sink-caps configuration
exactly when the current-config pointer designates it (as selected by the
most recent set_current_config) and the properties configuration
otherwise, regardless of the ready flags; it is a pure function of the
element state. -/
theorem C3_get_current_config (p : AudioParse) :
    (get_current_config p = ParseConfigId.sinkcaps ↔
      p.current_config = ConfigPtr.sinkcaps) ∧
    (get_current_config p = ParseConfigId.properties ↔
      p.current_config = ConfigPtr.properties) ∧
    ∀ id p2, set_current_config p id = some p2 → get_current_config p2 = id := by
  obtain ⟨pc, sc, cur⟩ := p
  refine ⟨?_, ?_, ?_⟩
  · cases cur <;> simp [get_current_config, is_using_sink_caps]
  · cases cur <;> simp [get_current_config, is_using_sink_caps]
  · intro id p2 h
    cases id with
    | current => simp [set_current_config] at h
    | sinkcaps =>
      simp only [set_current_config, Option.some.injEq] at h
      subst h
      simp [get_current_config, is_using_sink_caps]
    | properties =>
      simp only [set_current_config, Option.some.injEq] at h
      subst h
      simp [get_current_config, is_using_sink_caps]

/-- C3 witness: after selecting the sink-caps configuration the getter
reports it. -/
theorem C3_get_current_config_witness :
    get_current_config { audio_parse_init with current_config := ConfigPtr.sinkcaps } =
      ParseConfigId.sinkcaps :=
  (C3_get_current_config audio_parse_init).2.2 ParseConfigId.sinkcaps
    { audio_parse_init with current_config := ConfigPtr.sinkcaps } (by decide)

/-- C4 counterexample: converting A-law caps with a missing rate attribute
into the (ready) properties configuration fails, yet the target has been
modified (its format field was overwritten before the failure) and is
still flagged ready — so a failed conversion leaves the target neither
unmodified nor unready. -/
theorem C4_counterexample :
    (caps_to_config (Caps.alaw none (some 2) none)
      audio_parse_init.properties_config).2 = false ∧
    (caps_to_config (Caps.alaw none (some 2) none)
      audio_parse_init.properties_config).1.ready = true ∧
    (caps_to_config (Caps.alaw none (some 2) none)
      audio_parse_init.properties_config).1 ≠
      audio_parse_init.properties_config := by
  decide

/-- C4 (amended): whenever caps_to_config fails it returns false to the
caller and never sets the ready flag — the target keeps its previous ready
value, so a not-ready target stays not ready — although fields other than
ready may be partially overwritten. -/
theorem C4_failure_keeps_ready (caps : Caps) (c : Config)
    (h : (caps_to_config caps c).2 = false) :
    (caps_to_config caps c).1.ready = c.ready := by
  cases caps with
  | raw info => exact raw_failure_keeps_ready info c h
  | unaligned_raw info => exact raw_failure_keeps_ready info c h
  | alaw rate channels channel_mask =>
    exact law_failure_keeps_ready .alaw rate channels channel_mask c h
  | mulaw rate channels channel_mask =>
    exact law_failure_keeps_ready .mulaw rate channels channel_mask c h
  | unsupported => rfl

/-- C4 witness: an unsupported media type fails and the ready flag of the
target is unchanged. -/
theorem C4_failure_keeps_ready_witness :
    (caps_to_config Caps.unsupported init_config).1.ready = init_config.ready :=
  C4_failure_keeps_ready Caps.unsupported init_config (by decide)

/-- C5: a configuration with bpf 0 makes config_to_caps fail; the caps
out-pointer is NULL (modelled by none), so no capability and no geometry is
produced from a zero-bpf configuration. -/
theorem C5_zero_bpf (c : Config) (h : c.bpf = 0) : config_to_caps c = none := by
  unfold config_to_caps
  rw [if_pos h]

/-- C5 witness: the freshly initialised default configuration has bpf 0 and
yields no caps. -/
theorem C5_zero_bpf_witness :
    init_config.bpf = 0 ∧ config_to_caps init_config = none :=
  ⟨by decide, C5_zero_bpf init_config (by decide)⟩

/-- Field-level description of a successful raw-caps conversion. -/
lemma raw_success_fields {info : Option AudioInfo} {c0 c : Config}
    (h : raw_caps_to_config info c0 = (c, true)) :
    ∃ i, audio_info_from_caps info = some i ∧
      c.ready = true ∧ c.format = AudioParseFormat.pcm ∧ c.pcm_format = i.format ∧
      c.bpf = i.bpf ∧ c.sample_rate = i.rate ∧ c.interleaved = i.interleaved ∧
      c.num_channels = i.channels ∧ c.needs_channel_reordering = false ∧
      c.channel_positions = i.positions := by
  rw [raw_caps_to_config_eq] at h
  cases hi : audio_info_from_caps info with
  | none =>
    rw [hi] at h
    simp at h
  | some i =>
    rw [hi] at h
    dsimp only at h
    by_cases hch : i.channels = 0
    · rw [if_pos hch] at h
      simp at h
    · rw [if_neg hch] at h
      simp only [Prod.mk.injEq] at h
      obtain ⟨hX, -⟩ := h
      subst hX
      exact ⟨i, rfl, rfl, rfl, rfl, rfl, rfl, rfl, rfl, rfl, rfl⟩

/-- Field-level description of a successful A-law or mu-law conversion. -/
lemma law_success_fields {fmt : AudioParseFormat} {rate channels channel_mask : Option Nat}
    {c0 c : Config}
    (h : law_caps_to_config fmt rate channels channel_mask c0 = (c, true)) :
    ∃ r n ps, rate = some r ∧ channels = some n ∧ 0 < n ∧
      positions_from_mask n (effective_mask n channel_mask) = some ps ∧
      c.ready = true ∧ c.format = fmt ∧ c.sample_rate = r ∧ c.num_channels = n ∧
      c.needs_channel_reordering = false ∧ c.channel_positions = ps ∧
      c.bpf = 1 * n % 2 ^ 32 := by
  rw [law_caps_to_config_eq] at h
  cases rate with
  | none => simp at h
  | some r =>
    cases channels with
    | none => simp at h
    | some n =>
      dsimp only at h
      by_cases hn : n = 0
      · rw [if_pos hn] at h
        simp at h
      · rw [if_neg hn] at h
        cases hp : positions_from_mask n (effective_mask n channel_mask) with
        | none =>
          rw [hp] at h
          simp at h
        | some ps =>
          rw [hp] at h
          simp only [Prod.mk.injEq] at h
          obtain ⟨hX, -⟩ := h
          subst hX
          exact ⟨r, n, ps, rfl, rfl, by omega, hp, rfl, rfl, rfl, rfl, rfl, rfl, rfl⟩

/-- Any configuration produced by a successful caps_to_config has the
reordering flag cleared and canonical channel positions. -/
lemma caps_to_config_success_canonical {caps : Caps} {c0 c : Config}
    (h : caps_to_config caps c0 = (c, true)) :
    c.needs_channel_reordering = false ∧ isCanonicalOrder c.channel_positions = true := by
  cases caps with
  | unsupported => simp [caps_to_config] at h
  | raw info =>
    obtain ⟨i, hi, -, -, -, -, -, -, -, hnr, hcp⟩ := raw_success_fields h
    obtain ⟨-, -, -, -, -, hcan⟩ := audio_info_from_caps_eq_some hi
    rw [hcp]
    exact ⟨hnr, hcan⟩
  | unaligned_raw info =>
    obtain ⟨i, hi, -, -, -, -, -, -, -, hnr, hcp⟩ := raw_success_fields h
    obtain ⟨-, -, -, -, -, hcan⟩ := audio_info_from_caps_eq_some hi
    rw [hcp]
    exact ⟨hnr, hcan⟩
  | alaw rate channels channel_mask =>
    obtain ⟨r, n, ps, -, -, -, hpm, -, -, -, -, hnr, hcp, -⟩ := law_success_fields h
    obtain ⟨-, -, -, hcan⟩ := positions_from_mask_eq_some hpm
    rw [hcp]
    exact ⟨hnr, hcan⟩
  | mulaw rate channels channel_mask =>
    obtain ⟨r, n, ps, -, -, -, hpm, -, -, -, -, hnr, hcp, -⟩ := law_success_fields h
    obtain ⟨-, -, -, hcan⟩ := positions_from_mask_eq_some hpm
    rw [hcp]
    exact ⟨hnr, hcan⟩

/-- The selection expression inside config_to_caps is chosen_positions. -/
lemma chosen_positions_eq (c : Config) :
    (if c.needs_channel_reordering then c.reordered_channel_positions
     else c.channel_positions) = chosen_positions c := rfl

/-- C6: every capability published by config_to_caps carries exactly the
selected layout — reordered_channel_positions when needs_channel_reordering
is set, channel_positions otherwise (for A-law and mu-law, as the mask of
that list) — and whenever the reordering state of the configuration was
established by the core itself (by update_channel_reordering_flag or by a
successful caps_to_config) the published layout is in canonical order. -/
theorem C6_published_layout (c : Config) (caps2 : Caps)
    (hconv : config_to_caps c = some caps2) :
    (∀ i, caps2 = Caps.raw (some i) → i.positions = chosen_positions c) ∧
    (∀ r ch m, (caps2 = Caps.alaw r ch m ∨ caps2 = Caps.mulaw r ch m) →
      m = some (mask_of_positions (chosen_positions c))) ∧
    (reorder_established c → isCanonicalOrder (chosen_positions c) = true) := by
  have hcanon : reorder_established c → isCanonicalOrder (chosen_positions c) = true := by
    intro hest
    rcases hest with ⟨c0, hupd⟩ | ⟨caps0, c0, hwf, hconv0⟩
    · unfold update_channel_reordering_flag at hupd
      split_ifs at hupd with h1 h2
      · simp only [Option.some.injEq, Prod.mk.injEq] at hupd
        obtain ⟨hX, -⟩ := hupd
        subst hX
        simpa [chosen_positions] using h2
      · dsimp only at hupd
        cases hs : positions_to_valid_order c0.channel_positions with
        | some sorted =>
          rw [hs] at hupd
          simp only [Option.some.injEq, Prod.mk.injEq] at hupd
          obtain ⟨hX, -⟩ := hupd
          subst hX
          simpa [chosen_positions] using positions_to_valid_order_canonical hs
        | none =>
          rw [hs] at hupd
          simp at hupd
    · obtain ⟨hnr, hcan⟩ := caps_to_config_success_canonical hconv0
      simpa [chosen_positions, hnr] using hcan
  unfold config_to_caps at hconv
  by_cases hbpf : c.bpf = 0
  · rw [if_pos hbpf] at hconv
    exact absurd hconv (by simp)
  · rw [if_neg hbpf] at hconv
    dsimp only at hconv
    cases hf : c.format with
    | pcm =>
      rw [hf] at hconv
      dsimp only at hconv
      obtain rfl := (Option.some.inj hconv).symm
      refine ⟨?_, ?_, hcanon⟩
      · intro i hi
        simp only [Caps.raw.injEq, Option.some.injEq] at hi
        subst hi
        rfl
      · intro r ch m hm
        rcases hm with hm | hm <;> simp at hm
    | alaw =>
      rw [hf] at hconv
      dsimp only at hconv
      rw [chosen_positions_eq] at hconv
      cases hpm : positions_to_mask (chosen_positions c) with
      | none =>
        rw [hpm] at hconv
        simp at hconv
      | some mask =>
        rw [hpm] at hconv
        dsimp only at hconv
        obtain rfl := (Option.some.inj hconv).symm
        have hmof : mask = mask_of_positions (chosen_positions c) := by
          unfold positions_to_mask at hpm
          split_ifs at hpm with hcan2
          exact (Option.some.inj hpm).symm
        refine ⟨?_, ?_, hcanon⟩
        · intro i hi
          simp at hi
        · intro r ch m hm
          rcases hm with hm | hm
          · simp only [Caps.alaw.injEq] at hm
            rw [← hm.2.2, hmof]
          · simp at hm
    | mulaw =>
      rw [hf] at hconv
      dsimp only at hconv
      rw [chosen_positions_eq] at hconv
      cases hpm : positions_to_mask (chosen_positions c) with
      | none =>
        rw [hpm] at hconv
        simp at hconv
      | some mask =>
        rw [hpm] at hconv
        dsimp only at hconv
        obtain rfl := (Option.some.inj hconv).symm
        have hmof : mask = mask_of_positions (chosen_positions c) := by
          unfold positions_to_mask at hpm
          split_ifs at hpm with hcan2
          exact (Option.some.inj hpm).symm
        refine ⟨?_, ?_, hcanon⟩
        · intro i hi
          simp at hi
        · intro r ch m hm
          rcases hm with hm | hm
          · simp at hm
          · simp only [Caps.mulaw.injEq] at hm
            rw [← hm.2.2, hmof]

/-- Configuration of a swapped stereo stream before
update_channel_reordering_flag runs. -/
def c6_pre : Config :=
  { ready := true
    format := .pcm
    pcm_format := .s16le
    bpf := 4
    sample_rate := 48000
    num_channels := 2
    interleaved := true
    channel_positions := [1, 0]
    reordered_channel_positions := [1, 0]
    needs_channel_reordering := false }

/-- Configuration of a swapped stereo stream after
update_channel_reordering_flag has established the reordering state. -/
def c6_config : Config :=
  { c6_pre with
    needs_channel_reordering := true
    reordered_channel_positions := [0, 1] }

/-- C6 witness: the swapped-stereo configuration publishes the reordered
(canonical) layout. -/
theorem C6_published_layout_witness :
    isCanonicalOrder (chosen_positions c6_config) = true ∧
    (AudioInfo.mk AudioFormat.s16le 48000 2 true [0, 1]).positions =
      chosen_positions c6_config := by
  have h := C6_published_layout c6_config
    (Caps.raw (some (AudioInfo.mk AudioFormat.s16le 48000 2 true [0, 1]))) (by decide)
  exact ⟨h.2.2 (Or.inl ⟨c6_pre, by decide⟩), h.1 _ rfl⟩

/-- C7: with a frame-aligned valid byte count, process produces a new
buffer — the first valid bytes with every frame permuted from
channel_positions order to reordered_channel_positions order, of length
exactly the valid byte count — exactly when the configuration is PCM and
needs reordering; in every other case it signals no transform (none). The
configuration is a read-only input of the pure function. -/
theorem C7_process (c : Config) (in_data : List Nat) (num_valid : Nat)
    (hlen : c.reordered_channel_positions.length = c.num_channels)
    (hbpf : c.bpf = c.pcm_format.width / 8 * c.num_channels)
    (hpos : 0 < c.bpf)
    (halign : num_valid % c.bpf = 0)
    (hin : num_valid ≤ in_data.length) :
    ((c.format = AudioParseFormat.pcm ∧ c.needs_channel_reordering = true) →
      process c in_data num_valid =
        some (reorder_channels (c.pcm_format.width / 8) c.num_channels
          c.channel_positions c.reordered_channel_positions (in_data.take num_valid)) ∧
      (process c in_data num_valid).map List.length = some num_valid) ∧
    (¬(c.format = AudioParseFormat.pcm ∧ c.needs_channel_reordering = true) →
      process c in_data num_valid = none) := by
  constructor
  · intro hc
    have h1 : process c in_data num_valid =
        some (reorder_channels (c.pcm_format.width / 8) c.num_channels
          c.channel_positions c.reordered_channel_positions (in_data.take num_valid)) := by
      unfold process
      rw [if_pos hc]
    have htake : (in_data.take num_valid).length = num_valid := by
      rw [List.length_take]
      omega
    have hw : 0 < c.num_channels * (c.pcm_format.width / 8) := by
      rw [Nat.mul_comm, ← hbpf]
      exact hpos
    have hmod : (in_data.take num_valid).length %
        (c.num_channels * (c.pcm_format.width / 8)) = 0 := by
      rw [htake, Nat.mul_comm, ← hbpf]
      exact halign
    have hL := reorder_channels_length (c.pcm_format.width / 8) c.num_channels
      c.channel_positions c.reordered_channel_positions (in_data.take num_valid)
      hlen hw hmod
    refine ⟨h1, ?_⟩
    rw [h1]
    simp [hL, htake]
  · intro hc
    unfold process
    rw [if_neg hc]

/-- Swapped-stereo S16 configuration used as the process witness input. -/
def c7_config : Config :=
  { ready := true
    format := .pcm
    pcm_format := .s16le
    bpf := 4
    sample_rate := 48000
    num_channels := 2
    interleaved := true
    channel_positions := [1, 0]
    reordered_channel_positions := [0, 1]
    needs_channel_reordering := true }

/-- C7 witness: on 8 frame-aligned bytes of a swapped stereo stream the
transform yields an 8-byte buffer with the two 2-byte samples of every
frame exchanged. -/
theorem C7_process_witness :
    (process c7_config [1, 2, 3, 4, 5, 6, 7, 8] 8 =
      some (reorder_channels (c7_config.pcm_format.width / 8) c7_config.num_channels
        c7_config.channel_positions c7_config.reordered_channel_positions
        (([1, 2, 3, 4, 5, 6, 7, 8] : List Nat).take 8)) ∧
     (process c7_config [1, 2, 3, 4, 5, 6, 7, 8] 8).map List.length = some 8) ∧
    process c7_config [1, 2, 3, 4, 5, 6, 7, 8] 8 = some [3, 4, 1, 2, 7, 8, 5, 6] :=
  ⟨(C7_process c7_config [1, 2, 3, 4, 5, 6, 7, 8] 8 (by decide) (by decide) (by decide)
      (by decide) (by decide)).1 (by decide),
   by decide⟩

/-- C9: code-bug evidence — setting the num-channels property to 2 ^ 29 on a
fresh element leaves the properties configuration ready while its guint bpf
wraps to 0 (16 * 2 ^ 29 mod 2 ^ 32 = 0), contradicting the invariant that
bpf is nonzero once ready and the header comment that bpf must be
nonzero. -/
theorem C9_overflow_eval :
    (set_num_channels_prop audio_parse_init 536870912).map
      (fun p => (p.properties_config.ready, p.properties_config.bpf)) =
      some (true, 0) := by
  decide

/-- Everything needed for the raw round trip: the output caps of
config_to_caps on a configuration freshly converted from raw caps, and the
validity of the republished info. -/
lemma C8_raw_core {info : Option AudioInfo} {c0 c : Config}
    (h : raw_caps_to_config info c0 = (c, true)) :
    ∃ i, audio_info_from_caps info = some i ∧
      config_to_caps c =
        some (Caps.raw (some (AudioInfo.mk i.format i.rate i.channels true i.positions))) ∧
      audio_info_from_caps (some (AudioInfo.mk i.format i.rate i.channels true i.positions)) =
        some (AudioInfo.mk i.format i.rate i.channels true i.positions) := by
  obtain ⟨i, hi, hready, hfmt, hpf, hbpf, hsr, hil, hnc, hnr, hcp⟩ := raw_success_fields h
  obtain ⟨hinfo, hrate, hch, hch64, hplen, hpcan⟩ := audio_info_from_caps_eq_some hi
  have hbpfne : ¬c.bpf = 0 := by
    rw [hbpf]
    have := audio_info_bpf_pos i hch
    omega
  refine ⟨i, hi, ?_, ?_⟩
  · unfold config_to_caps
    rw [if_neg hbpfne]
    dsimp only
    rw [chosen_positions_eq, hfmt]
    dsimp only
    have hchosen : chosen_positions c = i.positions := by
      simp [chosen_positions, hnr, hcp]
    rw [hpf, hsr, hnc, hchosen]
  · have hv : (AudioInfo.mk i.format i.rate i.channels true i.positions).valid = true := by
      simp only [AudioInfo.valid, Bool.and_eq_true, decide_eq_true_eq]
      exact ⟨⟨⟨⟨hrate, hch⟩, hch64⟩, hplen⟩, hpcan⟩
    have hred : audio_info_from_caps
        (some (AudioInfo.mk i.format i.rate i.channels true i.positions)) =
        if (AudioInfo.mk i.format i.rate i.channels true i.positions).valid = true
        then some (AudioInfo.mk i.format i.rate i.channels true i.positions)
        else none := rfl
    rw [hred, if_pos hv]

/-- Mask the A-law and mu-law arm reads from the caps equals the effective
mask when a present mask attribute is nonzero. -/
lemma raw_mask_eq_effective (n : Nat) (channel_mask : Option Nat)
    (hm : ∀ m, channel_mask = some m → 0 < m) :
    caps_mask_attr n channel_mask = effective_mask n channel_mask := by
  cases channel_mask with
  | some m =>
    have h0 := hm m rfl
    simp only [caps_mask_attr, effective_mask]
    rw [if_neg (by omega)]
  | none => rfl

/-- Everything needed for the A-law and mu-law round trip. -/
lemma C8_law_facts {fmt : AudioParseFormat} {rate channels channel_mask : Option Nat}
    {c0 c : Config}
    (h : law_caps_to_config fmt rate channels channel_mask c0 = (c, true))
    (hm64 : ∀ m, channel_mask = some m → 0 < m ∧ m < 2 ^ 64) :
    ∃ r n ps, rate = some r ∧ channels = some n ∧ 0 < n ∧ n ≤ 64 ∧
      c.ready = true ∧ c.format = fmt ∧ c.sample_rate = r ∧ c.num_channels = n ∧
      c.bpf = n ∧ c.needs_channel_reordering = false ∧ c.channel_positions = ps ∧
      positions_from_mask n (effective_mask n channel_mask) = some ps ∧
      isCanonicalOrder ps = true ∧
      mask_of_positions ps = effective_mask n channel_mask ∧
      caps_mask_attr n channel_mask = effective_mask n channel_mask := by
  obtain ⟨r, n, ps, hr, hch, hn, hpm, hready, hfmt, hsr, hnc, hnr, hcp, hbpf⟩ :=
    law_success_fields h
  obtain ⟨hps_eq, hlen, hle64, hcan⟩ := positions_from_mask_eq_some hpm
  have hmlt : effective_mask n channel_mask < 2 ^ 64 := by
    have hfb : fallback_mask n < 2 ^ 64 := by
      unfold fallback_mask
      rw [if_pos hle64]
      have hple : (2 : Nat) ^ n ≤ 2 ^ 64 := Nat.pow_le_pow_right (by norm_num) hle64
      omega
    rcases hcm : channel_mask with - | m
    · simpa [effective_mask] using hfb
    · obtain ⟨hm0, hm64v⟩ := hm64 m hcm
      simp only [effective_mask]
      rw [if_neg (by omega)]
      exact hm64v
  have hmof : mask_of_positions ps = effective_mask n channel_mask := by
    rw [hps_eq]
    exact mask_of_positions_filter _ hmlt
  have hraw : caps_mask_attr n channel_mask = effective_mask n channel_mask :=
    raw_mask_eq_effective n channel_mask (fun m hm2 => (hm64 m hm2).1)
  have hbpfn : c.bpf = n := by
    rw [hbpf]
    omega
  exact ⟨r, n, ps, hr, hch, hn, hle64, hready, hfmt, hsr, hnc, hbpfn, hnr, hcp, hpm,
    hcan, hmof, hraw⟩

/-- C8: a successful conversion of well-formed caps of any supported media
kind into a configuration, converted back to caps, preserves the encoding,
the sample rate, the channel count and the canonical-order channel
layout. -/
theorem C8_roundtrip (caps : Caps) (c0 c : Config) (hwf : caps.wf)
    (h : caps_to_config caps c0 = (c, true)) :
    (config_to_caps c).map caps_encoding = some (caps_encoding caps) ∧
    (config_to_caps c).map caps_rate = some (caps_rate caps) ∧
    (config_to_caps c).map caps_channels = some (caps_channels caps) ∧
    (config_to_caps c).map caps_layout = some (caps_layout caps) := by
  cases caps with
  | unsupported => simp [caps_to_config] at h
  | raw info =>
    obtain ⟨i, hi, hout, hv2⟩ := C8_raw_core h
    refine ⟨?_, ?_, ?_, ?_⟩ <;>
      simp [hout, caps_encoding, caps_rate, caps_channels, caps_layout, hv2, hi]
  | unaligned_raw info =>
    obtain ⟨i, hi, hout, hv2⟩ := C8_raw_core h
    refine ⟨?_, ?_, ?_, ?_⟩ <;>
      simp [hout, caps_encoding, caps_rate, caps_channels, caps_layout, hv2, hi]
  | alaw rate channels channel_mask =>
    obtain ⟨r, n, ps, hr, hch, hn, hle64, hready, hfmt, hsr, hnc, hbpfn, hnr, hcp, hpm,
      hcan, hmof, hraw⟩ :=
      C8_law_facts h (fun m hm => by rw [hm] at hwf; exact hwf)
    subst hr
    subst hch
    have hout : config_to_caps c =
        some (Caps.alaw (some r) (some n) (some (mask_of_positions ps))) := by
      unfold config_to_caps
      rw [if_neg (by omega)]
      dsimp only
      rw [chosen_positions_eq, hfmt]
      dsimp only
      have hchosen : chosen_positions c = ps := by
        simp [chosen_positions, hnr, hcp]
      rw [hchosen]
      unfold positions_to_mask
      rw [if_pos hcan, hsr, hnc]
    refine ⟨?_, ?_, ?_, ?_⟩
    · simp [hout, caps_encoding]
    · simp [hout, caps_rate]
    · simp [hout, caps_channels]
    · rw [hout]
      have hlay_out : caps_layout (Caps.alaw (some r) (some n)
          (some (mask_of_positions ps))) =
          positions_from_mask n (mask_of_positions ps) := by
        simp [caps_layout, caps_mask_attr]
      have hlay_in : caps_layout (Caps.alaw (some r) (some n) channel_mask) =
          positions_from_mask n (caps_mask_attr n channel_mask) := by
        simp [caps_layout]
      simp only [Option.map_some']
      rw [hlay_out, hlay_in, hmof, hraw, hpm]
  | mulaw rate channels channel_mask =>
    obtain ⟨r, n, ps, hr, hch, hn, hle64, hready, hfmt, hsr, hnc, hbpfn, hnr, hcp, hpm,
      hcan, hmof, hraw⟩ :=
      C8_law_facts h (fun m hm => by rw [hm] at hwf; exact hwf)
    subst hr
    subst hch
    have hout : config_to_caps c =
        some (Caps.mulaw (some r) (some n) (some (mask_of_positions ps))) := by
      unfold config_to_caps
      rw [if_neg (by omega)]
      dsimp only
      rw [chosen_positions_eq, hfmt]
      dsimp only
      have hchosen : chosen_positions c = ps := by
        simp [chosen_positions, hnr, hcp]
      rw [hchosen]
      unfold positions_to_mask
      rw [if_pos hcan, hsr, hnc]
    refine ⟨?_, ?_, ?_, ?_⟩
    · simp [hout, caps_encoding]
    · simp [hout, caps_rate]
    · simp [hout, caps_channels]
    · rw [hout]
      have hlay_out : caps_layout (Caps.mulaw (some r) (some n)
          (some (mask_of_positions ps))) =
          positions_from_mask n (mask_of_positions ps) := by
        simp [caps_layout, caps_mask_attr]
      have hlay_in : caps_layout (Caps.mulaw (some r) (some n) channel_mask) =
          positions_from_mask n (caps_mask_attr n channel_mask) := by
        simp [caps_layout]
      simp only [Option.map_some']
      rw [hlay_out, hlay_in, hmof, hraw, hpm]

/-- Mono A-law caps with no channel-mask attribute, as in the fallback-mask
scenario of the spec. -/
def c8_caps : Caps := Caps.alaw (some 8000) (some 1) none

/-- Configuration resulting from negotiating c8_caps into a fresh config. -/
def c8_config : Config := (caps_to_config c8_caps init_config).1

/-- C8 witness: the mono A-law round trip preserves encoding, rate, channel
count and layout. -/
theorem C8_roundtrip_witness :
    (config_to_caps c8_config).map caps_encoding = some (caps_encoding c8_caps) ∧
    (config_to_caps c8_config).map caps_rate = some (caps_rate c8_caps) ∧
    (config_to_caps c8_config).map caps_channels = some (caps_channels c8_caps) ∧
    (config_to_caps c8_config).map caps_layout = some (caps_layout c8_caps) :=
  C8_roundtrip c8_caps init_config c8_config (by trivial) (by decide)

/-- update_config_bpf only replaces the bpf field, with bpf_formula. -/
lemma update_config_bpf_eq (c : Config) :
    update_config_bpf c = { c with bpf := bpf_formula c } := by
  obtain ⟨rdy, fmt, pf, bpf0, sr, nc, il, cp, rcp, nr⟩ := c
  cases fmt <;> rfl

/-- Result shape of update_channel_reordering_flag when the channel count is
nonzero: it always succeeds in returning a configuration whose reordering
flag records exactly whether the positions were non-canonical, with the
positions and the other scalar fields untouched. -/
lemma update_flag_result (c : Config) (hn : ¬c.num_channels = 0) :
    ∃ c2 ok, update_channel_reordering_flag c = some (c2, ok) ∧
      c2.needs_channel_reordering = !isCanonicalOrder c.channel_positions ∧
      c2.channel_positions = c.channel_positions ∧
      c2.num_channels = c.num_channels ∧ c2.format = c.format ∧
      c2.pcm_format = c.pcm_format ∧ c2.ready = c.ready := by
  unfold update_channel_reordering_flag
  rw [if_neg hn]
  by_cases hcan : isCanonicalOrder c.channel_positions = true
  · rw [if_pos hcan]
    refine ⟨_, _, rfl, ?_, rfl, rfl, rfl, rfl, rfl⟩
    simp [hcan]
  · rw [if_neg hcan]
    have hcf : isCanonicalOrder c.channel_positions = false := by
      cases hb : isCanonicalOrder c.channel_positions
      · rfl
      · exact absurd hb hcan
    dsimp only
    cases hs : positions_to_valid_order c.channel_positions with
    | some sorted =>
      refine ⟨_, _, rfl, ?_, rfl, rfl, rfl, rfl, rfl⟩
      simp [hcf]
    | none =>
      refine ⟨_, _, rfl, ?_, rfl, rfl, rfl, rfl, rfl⟩
      simp [hcf]

/-- C10: the channel-positions property setter — a non-NULL, non-empty
array whose length differs from the current channel count updates
num_channels to the array length, copies the array into channel_positions
and recomputes the reordering flag and bpf; an empty array is rejected
without modifying anything; a NULL value restores the default positions for
the current channel count (within the 64-channel bound) and recomputes
bpf. -/
theorem C10_channel_positions_prop (p : AudioParse) (vals : List Nat) (p2 p3 : AudioParse) :
    (vals ≠ [] → vals.length ≠ p.properties_config.num_channels →
      set_channel_positions_prop p (some vals) = some p2 →
      p2.properties_config.num_channels = vals.length ∧
      p2.properties_config.channel_positions = vals ∧
      p2.properties_config.needs_channel_reordering = !isCanonicalOrder vals ∧
      p2.properties_config.bpf = bpf_formula p2.properties_config) ∧
    (set_channel_positions_prop p (some []) = some p) ∧
    (0 < p.properties_config.num_channels → p.properties_config.num_channels ≤ 64 →
      set_channel_positions_prop p none = some p3 →
      p3.properties_config.num_channels = p.properties_config.num_channels ∧
      p3.properties_config.channel_positions =
        List.range p.properties_config.num_channels ∧
      p3.properties_config.needs_channel_reordering = false ∧
      p3.properties_config.bpf = bpf_formula p3.properties_config) := by
  refine ⟨?_, ?_, ?_⟩
  · intro hne hlen hset
    unfold set_channel_positions_prop at hset
    dsimp only at hset
    rw [if_neg hne, if_neg hlen, set_config_channels_nofill,
      if_neg (fun hc => hne (List.eq_nil_of_length_eq_zero hc))] at hset
    simp only [Option.map_some'] at hset
    try dsimp only at hset
    obtain ⟨c2, ok, hupd, hneeds, hcp2, hnc2, hfmt2, hpf2, -⟩ :=
      update_flag_result
        { p.properties_config with
          num_channels := vals.length
          needs_channel_reordering := false
          channel_positions := vals }
        (fun hc => hne (List.eq_nil_of_length_eq_zero hc))
    rw [hupd] at hset
    dsimp only at hset
    obtain rfl := Option.some.inj hset
    rw [update_config_bpf_eq]
    dsimp only
    refine ⟨?_, ?_, ?_, rfl⟩
    · rw [hnc2]
    · rw [hcp2]
    · rw [hneeds]
  · rfl
  · intro hpos hle hset
    unfold set_channel_positions_prop at hset
    dsimp only at hset
    rw [if_pos hpos, set_config_channels_fill, if_neg (by omega)] at hset
    have hz : (if (0 : Nat) = 0 then fallback_mask p.properties_config.num_channels
        else 0) = fallback_mask p.properties_config.num_channels := if_pos rfl
    rw [hz, positions_from_mask_fallback _ hle] at hset
    dsimp only at hset
    obtain rfl := Option.some.inj hset
    rw [update_config_bpf_eq]
    dsimp only
    exact ⟨rfl, rfl, rfl, rfl⟩

/-- State after setting channel-positions to the three-element list. -/
def c10_p2 : AudioParse :=
  (set_channel_positions_prop audio_parse_init (some [1, 0, 2])).getD audio_parse_init

/-- State after setting channel-positions to NULL. -/
def c10_p3 : AudioParse :=
  (set_channel_positions_prop audio_parse_init none).getD audio_parse_init

/-- C10 witness: a swapped three-channel list resizes the stereo default
config and marks it for reordering; NULL restores the two default
positions. -/
theorem C10_channel_positions_prop_witness :
    (c10_p2.properties_config.num_channels = [1, 0, 2].length ∧
     c10_p2.properties_config.channel_positions = [1, 0, 2] ∧
     c10_p2.properties_config.needs_channel_reordering = !isCanonicalOrder [1, 0, 2] ∧
     c10_p2.properties_config.bpf = bpf_formula c10_p2.properties_config) ∧
    (set_channel_positions_prop audio_parse_init (some []) = some audio_parse_init) ∧
    (c10_p3.properties_config.num_channels =
       audio_parse_init.properties_config.num_channels ∧
     c10_p3.properties_config.channel_positions =
       List.range audio_parse_init.properties_config.num_channels ∧
     c10_p3.properties_config.needs_channel_reordering = false ∧
     c10_p3.properties_config.bpf = bpf_formula c10_p3.properties_config) := by
  have h := C10_channel_positions_prop audio_parse_init [1, 0, 2] c10_p2 c10_p3
  exact ⟨h.1 (by decide) (by decide) (by decide), h.2.1,
    h.2.2 (by decide) (by decide) (by decide)⟩

end Discret11
